import Mathlib

/-!
# Verification of the wallet-authentication core

Shallow embedding of the authentication substrate of the
`auth-service-travelok-app` repository: the address validator, nonce and
challenge issuance, the CBOR signature-envelope parser with its heuristic
fallbacks, the two signature-verification variants (the multi-format one in
`src/server/auth-utils.js` and the COSE_Sign1 one in `src/unnamed/part_002`,
which also appears as the second half of `src/server/index.js`), and the two
HTTP routes `/api/auth-challenge` and `/api/verify-wallet`.

Bytes are `Nat` values below 256 in `List Nat`.  The Ed25519 primitive
`PublicKey.verify` from `@emurgo/cardano-serialization-lib` is an abstract
parameter `verify : List Nat -> List Nat -> List Nat -> Bool`
(public key, message bytes, signature bytes), as is the blake2b hash.
Randomness (`crypto.randomBytes`) is passed in as an explicit byte list.
-/

set_option autoImplicit false

namespace AuthService

/-! ## Hex encoding and decoding (Node `Buffer` semantics) -/

/-- Numeric value of one hexadecimal digit character, case-insensitive
(`0-9`, `a-f`, `A-F`). -/
def hexDigitVal (c : Char) : Option Nat :=
  if '0' ≤ c ∧ c ≤ '9' then some (c.toNat - '0'.toNat)
  else if 'a' ≤ c ∧ c ≤ 'f' then some (c.toNat - 'a'.toNat + 10)
  else if 'A' ≤ c ∧ c ≤ 'F' then some (c.toNat - 'A'.toNat + 10)
  else none

/-- `Buffer.from(str, 'hex')` on a character list: consume complete pairs of
hex digits, stopping (without error) at the first invalid character or at an
odd trailing digit. -/
def hexDecodeL : List Char → List Nat
  | c1 :: c2 :: rest =>
    match hexDigitVal c1, hexDigitVal c2 with
    | some h, some l => (16 * h + l) :: hexDecodeL rest
    | _, _ => []
  | _ => []

/-- `Buffer.from(str, 'hex')` as used throughout the source. -/
def hexDecode (s : String) : List Nat := hexDecodeL s.data

/-- Lowercase hex digit character for a value below 16. -/
def hexDigitChar (n : Nat) : Char :=
  if n < 10 then Char.ofNat (48 + n) else Char.ofNat (87 + n)

/-- Two-digit lowercase hex rendering of one byte, as produced per byte by
`Buffer.prototype.toString('hex')`. -/
def byteToHex (b : Nat) : List Char :=
  [hexDigitChar (b / 16), hexDigitChar (b % 16)]

/-- `buffer.toString('hex')`: each byte becomes two lowercase hex digits. -/
def hexEncode (bs : List Nat) : String :=
  String.mk (bs.map byteToHex).flatten

/-! ## UTF-8 and ascii encodings -/

/-- UTF-8 bytes of a single code point. -/
def utf8Char (c : Char) : List Nat :=
  let n := c.toNat
  if n < 0x80 then [n]
  else if n < 0x800 then [0xC0 + n / 0x40, 0x80 + n % 0x40]
  else if n < 0x10000 then
    [0xE0 + n / 0x1000, 0x80 + (n / 0x40) % 0x40, 0x80 + n % 0x40]
  else
    [0xF0 + n / 0x40000, 0x80 + (n / 0x1000) % 0x40,
     0x80 + (n / 0x40) % 0x40, 0x80 + n % 0x40]

/-- `Buffer.from(str, 'utf8')`. -/
def utf8Encode (s : String) : List Nat := (s.data.map utf8Char).flatten

/-- `Buffer.from(str, 'ascii')`: low byte of each code unit.  (The sources
only ever pass ascii challenge strings here.) -/
def asciiEncode (s : String) : List Nat := s.data.map (fun c => c.toNat % 256)

/-- A code point acceptable to `Char.ofNat`; anything else is replaced. -/
def mkChar (n : Nat) : Char :=
  if n < 0xD800 ∨ (0xE000 ≤ n ∧ n < 0x110000) then Char.ofNat n else '�'

/-- Whether a byte is a UTF-8 continuation byte `10xxxxxx`. -/
def isCont (b : Nat) : Bool := 0x80 ≤ b ∧ b ≤ 0xBF

/-- Lossy UTF-8 decoding, as `buffer.toString('utf8')`: malformed sequences
produce U+FFFD and resume one byte later.  Fuel-driven; the fuel passed by
`utf8DecodeLossy` always suffices because every step consumes a byte. -/
def utf8DecodeAux : Nat → List Nat → List Char
  | 0, _ => []
  | _ + 1, [] => []
  | fuel + 1, b :: rest =>
    if b < 0x80 then mkChar b :: utf8DecodeAux fuel rest
    else if 0xC2 ≤ b ∧ b ≤ 0xDF then
      match rest with
      | b2 :: r2 =>
        if isCont b2 then
          mkChar ((b - 0xC0) * 0x40 + (b2 - 0x80)) :: utf8DecodeAux fuel r2
        else '�' :: utf8DecodeAux fuel rest
      | [] => ['�']
    else if 0xE0 ≤ b ∧ b ≤ 0xEF then
      match rest with
      | b2 :: b3 :: r3 =>
        let cp := (b - 0xE0) * 0x1000 + (b2 - 0x80) * 0x40 + (b3 - 0x80)
        if isCont b2 ∧ isCont b3 ∧ 0x800 ≤ cp ∧ ¬ (0xD800 ≤ cp ∧ cp ≤ 0xDFFF) then
          mkChar cp :: utf8DecodeAux fuel r3
        else '�' :: utf8DecodeAux fuel rest
      | _ => '�' :: utf8DecodeAux fuel rest
    else if 0xF0 ≤ b ∧ b ≤ 0xF4 then
      match rest with
      | b2 :: b3 :: b4 :: r4 =>
        let cp := (b - 0xF0) * 0x40000 + (b2 - 0x80) * 0x1000 +
                  (b3 - 0x80) * 0x40 + (b4 - 0x80)
        if isCont b2 ∧ isCont b3 ∧ isCont b4 ∧ 0x10000 ≤ cp ∧ cp < 0x110000 then
          mkChar cp :: utf8DecodeAux fuel r4
        else '�' :: utf8DecodeAux fuel rest
      | _ => '�' :: utf8DecodeAux fuel rest
    else '�' :: utf8DecodeAux fuel rest

/-- `buffer.toString('utf8')`, total and lossy. -/
def utf8DecodeLossy (bs : List Nat) : String :=
  String.mk (utf8DecodeAux (bs.length + 1) bs)

/-! ## The address validator (`validateAddress`, `src/server/auth-utils.js`) -/

/-- One character of the class `[0-9a-z]`. -/
def isLowerAlnum (c : Char) : Bool :=
  ('0' ≤ c ∧ c ≤ '9') ∨ ('a' ≤ c ∧ c ≤ 'z')

/-- One character of the class `[0-9a-f]` with the `i` flag, i.e. any hex
digit in either case. -/
def isHexDigitCI (c : Char) : Bool := (hexDigitVal c).isSome

/-- The anchored regex `addr(_test)?1[0-9a-z]+` on a character list: the
literal `addr_test1` or `addr1` head followed by a non-empty lowercase
alphanumeric tail.  The optional `_test` group is deterministic: when the
input carries `_` after `addr`, the branch that skips the group would need a
`1` there and fails anyway, so no backtracking case is lost. -/
def bech32TestL (l : List Char) : Bool :=
  if l.take 10 = ['a', 'd', 'd', 'r', '_', 't', 'e', 's', 't', '1'] then
    ¬ l.drop 10 = [] ∧ (l.drop 10).all isLowerAlnum
  else if l.take 5 = ['a', 'd', 'd', 'r', '1'] then
    ¬ l.drop 5 = [] ∧ (l.drop 5).all isLowerAlnum
  else false

/-- The regex `^[0-9a-f]{114}$/i`. -/
def hexPattern114 (l : List Char) : Bool :=
  l.length = 114 ∧ l.all isHexDigitCI

/-- The regex `^[0-9a-f]{56,116}$/i`. -/
def hexPatternShort (l : List Char) : Bool :=
  56 ≤ l.length ∧ l.length ≤ 116 ∧ l.all isHexDigitCI

/-- `validateAddress` from `src/server/auth-utils.js`: the disjunction of the
three regex tests, for a string argument. -/
def validateAddress (address : String) : Bool :=
  bech32TestL address.data ∨ hexPattern114 address.data ∨
    hexPatternShort address.data

/-- One lowercase hexadecimal digit (`0-9`, `a-f`), the alphabet of
`buffer.toString('hex')`. -/
def isLowerHexChar (c : Char) : Bool :=
  ('0' ≤ c ∧ c ≤ '9') ∨ ('a' ≤ c ∧ c ≤ 'f')

/-! ## CBOR values, decoding and encoding

The sources use the npm `cbor` package.  `CBOR` models the decoded JavaScript
values on the subset of CBOR the envelopes exercise: integers (major types 0
and 1), byte strings (Buffers), text strings, definite-length arrays and
definite-length maps.  Tags, floats, simple values and indefinite lengths
decode to a failure, as they are never produced by the wallets modelled here;
the fallback code paths make the theorems below insensitive to this cut. -/

inductive CBOR where
  | int (i : Int)
  | bytes (bs : List Nat)
  | text (s : String)
  | arr (xs : List CBOR)
  | map (kvs : List (CBOR × CBOR))
  deriving Inhabited

/-- Big-endian read of `k` bytes. -/
def readN : Nat → List Nat → Option (Nat × List Nat)
  | 0, bs => some (0, bs)
  | k + 1, b :: bs => (readN k bs).map (fun vr => (b * 256 ^ k + vr.1, vr.2))
  | _ + 1, [] => none

/-- Decode one CBOR head: major type, argument value, remaining bytes. -/
def decodeHead : List Nat → Option (Nat × Nat × List Nat)
  | [] => none
  | b :: bs =>
    let major := b / 32
    let addl := b % 32
    if addl < 24 then some (major, addl, bs)
    else if addl = 24 then (readN 1 bs).map (fun vr => (major, vr.1, vr.2))
    else if addl = 25 then (readN 2 bs).map (fun vr => (major, vr.1, vr.2))
    else if addl = 26 then (readN 4 bs).map (fun vr => (major, vr.1, vr.2))
    else if addl = 27 then (readN 8 bs).map (fun vr => (major, vr.1, vr.2))
    else none

/-- Split off exactly `n` bytes, failing on truncated input. -/
def takeExact (n : Nat) (bs : List Nat) : Option (List Nat × List Nat) :=
  if n ≤ bs.length then some (bs.take n, bs.drop n) else none

mutual

/-- Fuel-driven decoder for one CBOR item.  Every call consumes at least one
byte of input or one unit of list arity, so `2 * length + 2` fuel always
suffices for inputs the real decoder accepts. -/
def decodeItem : Nat → List Nat → Option (CBOR × List Nat)
  | 0, _ => none
  | fuel + 1, bs =>
    match decodeHead bs with
    | none => none
    | some (0, v, r) => some (.int (Int.ofNat v), r)
    | some (1, v, r) => some (.int (-(1 + Int.ofNat v)), r)
    | some (2, v, r) => (takeExact v r).map (fun xr => (.bytes xr.1, xr.2))
    | some (3, v, r) =>
      (takeExact v r).map (fun xr => (.text (utf8DecodeLossy xr.1), xr.2))
    | some (4, v, r) => (decodeList fuel v r).map (fun xr => (.arr xr.1, xr.2))
    | some (5, v, r) => (decodePairs fuel v r).map (fun xr => (.map xr.1, xr.2))
    | some _ => none

/-- Decode `k` consecutive items (array elements). -/
def decodeList : Nat → Nat → List Nat → Option (List CBOR × List Nat)
  | _, 0, r => some ([], r)
  | 0, _ + 1, _ => none
  | fuel + 1, k + 1, r =>
    (decodeItem fuel r).bind fun xr =>
      (decodeList fuel k xr.2).map fun ysr => (xr.1 :: ysr.1, ysr.2)

/-- Decode `k` consecutive key-value pairs (map entries). -/
def decodePairs : Nat → Nat → List Nat → Option (List (CBOR × CBOR) × List Nat)
  | _, 0, r => some ([], r)
  | 0, _ + 1, _ => none
  | fuel + 1, k + 1, r =>
    (decodeItem fuel r).bind fun kr =>
      (decodeItem fuel kr.2).bind fun vr =>
        (decodePairs fuel k vr.2).map fun psr => ((kr.1, vr.1) :: psr.1, psr.2)

end

/-- `cbor.decodeFirstSync`: decode the first item of the blob. -/
def decodeFirstSync (bs : List Nat) : Option CBOR :=
  (decodeItem (2 * bs.length + 2) bs).map (·.1)

/-- Shortest-form CBOR head for a major type and argument, as the npm `cbor`
encoder emits. -/
def cborHdr (major n : Nat) : List Nat :=
  if n < 24 then [major * 32 + n]
  else if n < 256 then [major * 32 + 24, n]
  else if n < 65536 then [major * 32 + 25, n / 256, n % 256]
  else if n < 4294967296 then
    [major * 32 + 26, n / 16777216 % 256, n / 65536 % 256, n / 256 % 256, n % 256]
  else
    [major * 32 + 27, n / 72057594037927936 % 256, n / 281474976710656 % 256,
     n / 1099511627776 % 256, n / 4294967296 % 256, n / 16777216 % 256,
     n / 65536 % 256, n / 256 % 256, n % 256]

mutual

/-- `cbor.encode` on decoded values: strings as text, Buffers as byte strings,
numbers as integers, arrays and maps structurally, shortest-form lengths. -/
def cborEncode : CBOR → List Nat
  | .int i =>
    if 0 ≤ i then cborHdr 0 i.toNat else cborHdr 1 (-(i + 1)).toNat
  | .bytes bs => cborHdr 2 bs.length ++ bs
  | .text s => cborHdr 3 (utf8Encode s).length ++ utf8Encode s
  | .arr xs => cborHdr 4 xs.length ++ cborEncodeList xs
  | .map kvs => cborHdr 5 kvs.length ++ cborEncodePairs kvs

/-- Concatenated encodings of array elements. -/
def cborEncodeList : List CBOR → List Nat
  | [] => []
  | x :: xs => cborEncode x ++ cborEncodeList xs

/-- Concatenated encodings of map entries. -/
def cborEncodePairs : List (CBOR × CBOR) → List Nat
  | [] => []
  | (k, v) :: kvs => cborEncode k ++ cborEncode v ++ cborEncodePairs kvs

end

/-! ## JavaScript-value behaviour of decoded CBOR -/

/-- JavaScript truthiness of a decoded value: `0` and the empty string are
falsy; Buffers, arrays and maps are objects and always truthy. -/
def jsTruthy : CBOR → Bool
  | .int i => ¬ i = 0
  | .text s => ¬ s = ""
  | .bytes _ => true
  | .arr _ => true
  | .map _ => true

/-- The `.length` property of a decoded value: byte count of a Buffer,
UTF-16-unit count of a string (equal to the code-point count for the ascii
data used here), element count of an array; `undefined` (none) for numbers
and Maps. -/
def jsLength : CBOR → Option Nat
  | .bytes bs => some bs.length
  | .text s => some s.length
  | .arr xs => some xs.length
  | .int _ => none
  | .map _ => none

/-- `Buffer.from(v)` on a decoded value: Buffers are passed through (the
array branch of `parseCBORSignature` returns them without copying), strings
become their UTF-8 bytes, arrays coerce each element to a byte, and numbers
or Maps throw a `TypeError` (none). -/
def jsBufferFrom : CBOR → Option (List Nat)
  | .bytes bs => some bs
  | .text s => some (utf8Encode s)
  | .arr xs =>
    some (xs.map (fun x =>
      match x with
      | .int i => (i.emod 256).toNat
      | _ => 0))
  | .int _ => none
  | .map _ => none

/-- Whether every key of a decoded map is a string.  The npm `cbor` decoder
returns a plain object in that case and a `Map` otherwise. -/
def allKeysText (kvs : List (CBOR × CBOR)) : Bool :=
  kvs.all (fun kv => match kv.1 with | .text _ => true | _ => false)

/-- `map.get(i)` for an integer key on a decoded `Map`. -/
def lookupIntKey (kvs : List (CBOR × CBOR)) (i : Int) : Option CBOR :=
  (kvs.find? (fun kv => match kv.1 with | .int j => j == i | _ => false)).map (·.2)

/-- `map.get(s)` for a string key, and property access `obj[s]` on a decoded
plain object. -/
def lookupTextKey (kvs : List (CBOR × CBOR)) (s : String) : Option CBOR :=
  (kvs.find? (fun kv => match kv.1 with | .text t => t == s | _ => false)).map (·.2)

mutual

/-- `String(element)` inside `Array.prototype.join`: numbers render in
decimal, Buffers decode as UTF-8, nested arrays join recursively, Maps render
as their object tag. -/
def cborJoinStr : CBOR → String
  | .int i => toString i
  | .bytes bs => utf8DecodeLossy bs
  | .text s => s
  | .arr xs => String.intercalate "," (cborJoinStrList xs)
  | .map _ => "[object Map]"

/-- Element renderings for `cborJoinStr` on arrays. -/
def cborJoinStrList : List CBOR → List String
  | [] => []
  | x :: xs => cborJoinStr x :: cborJoinStrList xs

end

/-- `payload.toString('utf8')` on a decoded value.  Buffers decode as UTF-8
and strings ignore the argument; arrays fall back to `join(',')`; a numeric
payload throws a `RangeError` (the argument is not a valid radix), modelled
as none. -/
def jsToStringUtf8 : CBOR → Option String
  | .bytes bs => some (utf8DecodeLossy bs)
  | .text s => some s
  | .arr xs => some (String.intercalate "," (cborJoinStrList xs))
  | .map _ => some "[object Map]"
  | .int _ => none

/-! ## The signature-envelope parser (`src/server/auth-utils.js`)

Throwing paths are modelled as none.  Every throw inside the `try` block of
`parseCBORSignature` / `parseCBORKey` lands in the catch-block fallback, so
the JavaScript functions are the composition of a structured attempt with a
byte-scanning fallback. -/

namespace AuthUtils

open AuthService

/-- The `try` block of `parseCBORSignature`: canonical COSE_Sign1 array
decode (field 3), then the map/object lookups (`decoded.signature`,
`decoded.get(3) || decoded.get('signature')`). -/
def structuredSig (bs : List Nat) : Option (List Nat) :=
  match decodeFirstSync bs with
  | none => none
  | some v =>
    match v with
    | .arr xs =>
      if 4 ≤ xs.length then
        match xs[3]? with
        | some f3 => jsBufferFrom f3
        | none => none
      else none
    | .map kvs =>
      if allKeysText kvs then
        match lookupTextKey kvs "signature" with
        | some sigv => if jsTruthy sigv then jsBufferFrom sigv else none
        | none => none
      else
        match lookupIntKey kvs 3 with
        | some v3 =>
          if jsTruthy v3 then jsBufferFrom v3
          else
            match lookupTextKey kvs "signature" with
            | some sv => if jsTruthy sv then jsBufferFrom sv else none
            | none => none
        | none =>
          match lookupTextKey kvs "signature" with
          | some sv => if jsTruthy sv then jsBufferFrom sv else none
          | none => none
    | _ => none

/-- The 64-byte window scan of the signature fallback: first window whose
leading 8 bytes contain fewer than 4 zero bytes. -/
def scanSig : List Nat → Option (List Nat)
  | [] => none
  | b :: t =>
    if 64 ≤ (b :: t).length then
      if ((((b :: t).take 64).take 8).filter (fun x => x == 0)).length < 4 then
        some ((b :: t).take 64)
      else scanSig t
    else none

/-- The catch-block fallback of `parseCBORSignature`: window scan, then the
trailing 64 bytes, else the final throw. -/
def sigFallback (bs : List Nat) : Option (List Nat) :=
  match scanSig bs with
  | some w => some w
  | none =>
    if 64 ≤ bs.length then some (bs.drop (bs.length - 64)) else none

/-- `parseCBORSignature` on the already hex-decoded blob. -/
def parseCBORSignature (bs : List Nat) : Option (List Nat) :=
  match structuredSig bs with
  | some r => some r
  | none => sigFallback bs

/-- One probe of the `Map` branch of `parseCBORKey`: `decoded.get(i)` must
be truthy and a 32-byte Buffer to be returned (bytes are always truthy, and
non-buffer values fail the `Buffer.isBuffer || Uint8Array` test whatever
their truthiness). -/
def mapKeyProbe (kvs : List (CBOR × CBOR)) (i : Int) : Option (List Nat) :=
  match lookupIntKey kvs i with
  | some (CBOR.bytes b) => if b.length = 32 then some b else none
  | _ => none

/-- One probe of the plain-object branch of `parseCBORKey`: the property must
be truthy with `.length === 32`, and is then passed through `Buffer.from`. -/
def objKeyProbe (kvs : List (CBOR × CBOR)) (name : String) : Option (List Nat) :=
  match lookupTextKey kvs name with
  | some pv =>
    if jsTruthy pv ∧ jsLength pv = some 32 then jsBufferFrom pv else none
  | none => none

/-- The `try` block of `parseCBORKey`: on a decoded `Map`, probe the key ids
`-2, -3, 1, 2, 3` for a 32-byte Buffer; on a plain object, probe the
properties `publicKey`, `-2`, `-3`, `1`, `2` for a truthy value whose
`.length` is 32. -/
def structuredKey (bs : List Nat) : Option (List Nat) :=
  match decodeFirstSync bs with
  | none => none
  | some v =>
    match v with
    | .map kvs =>
      if allKeysText kvs then
        objKeyProbe kvs "publicKey" <|> objKeyProbe kvs "-2" <|>
          objKeyProbe kvs "-3" <|> objKeyProbe kvs "1" <|> objKeyProbe kvs "2"
      else
        mapKeyProbe kvs (-2) <|> mapKeyProbe kvs (-3) <|> mapKeyProbe kvs 1 <|>
          mapKeyProbe kvs 2 <|> mapKeyProbe kvs 3
    | _ => none

/-- The 32-byte window scan of the key fallback: first window with fewer than
16 zero bytes and fewer than 16 `0xFF` bytes. -/
def scanKey : List Nat → Option (List Nat)
  | [] => none
  | b :: t =>
    if 32 ≤ (b :: t).length then
      if ((((b :: t).take 32).filter (fun x => x == 0)).length < 16 ∧
          (((b :: t).take 32).filter (fun x => x == 255)).length < 16) then
        some ((b :: t).take 32)
      else scanKey t
    else none

/-- The catch-block fallback of `parseCBORKey`: window scan, then the
trailing 32 bytes, else the final throw. -/
def keyFallback (bs : List Nat) : Option (List Nat) :=
  match scanKey bs with
  | some w => some w
  | none =>
    if 32 ≤ bs.length then some (bs.drop (bs.length - 32)) else none

/-- `parseCBORKey` on the already hex-decoded blob. -/
def parseCBORKey (bs : List Nat) : Option (List Nat) :=
  match structuredKey bs with
  | some r => some r
  | none => keyFallback bs

/-- `stringToHex`: per UTF-16 code unit, `charCodeAt(0).toString(16)` padded
to at least two digits.  Units at or above `0x1000` render with four digits;
a code point beyond the BMP contributes its high surrogate. -/
def stringToHexChar (c : Char) : List Char :=
  let m := if c.toNat < 0x10000 then c.toNat else 0xD800 + (c.toNat - 0x10000) / 0x400
  if m < 16 then ['0', hexDigitChar m]
  else if m < 256 then byteToHex m
  else if m < 4096 then [hexDigitChar (m / 256), hexDigitChar (m / 16 % 16), hexDigitChar (m % 16)]
  else [hexDigitChar (m / 4096), hexDigitChar (m / 256 % 16),
        hexDigitChar (m / 16 % 16), hexDigitChar (m % 16)]

/-- `stringToHex` from `src/server/auth-utils.js`. -/
def stringToHex (s : String) : String :=
  String.mk (s.data.map stringToHexChar).flatten

/-- The `signedPayload` extraction inside `verifySignature`: re-decode the
signature blob and take field 2 when it is a Buffer in an array of at least
three fields. -/
def extractSignedPayload (sigBlob : List Nat) : Option (List Nat) :=
  match decodeFirstSync sigBlob with
  | some (.arr xs) =>
    if 3 ≤ xs.length then
      match xs[2]? with
      | some (CBOR.bytes p) => some p
      | _ => none
    else none
  | _ => none

/-- The ordered `messageFormats` candidate list built by `verifySignature`:
the extracted payload when available, then the hex / utf8 / ascii renderings
of the challenge, the CIP-30 concatenation, the CBOR-encoded message and the
truncated blake2b digest (the hash primitive is the parameter `blake`). -/
def messageFormats (blake : String → List Nat) (address message : String)
    (messageHex : Option String) (sigBlob : List Nat) :
    List (String × List Nat) :=
  let mhx :=
    match messageHex with
    | some h => if h = "" then stringToHex message else h
    | none => stringToHex message
  (match extractSignedPayload sigBlob with
   | some p => [("extracted-payload", p)]
   | none => []) ++
  [("original-hex", hexDecode mhx),
   ("utf8", utf8Encode message),
   ("ascii", asciiEncode message),
   ("cip30-combined", hexDecode address ++ utf8Encode message),
   ("cbor-encoded", cborEncode (.text message)),
   ("blake2b-256", (blake message).take 32)]

/-- `verifySignature` from `src/server/auth-utils.js`: parse both blobs,
enforce the 32/64 length checks, then return true exactly when some
candidate byte sequence verifies under the Ed25519 primitive.  Any internal
throw yields false. -/
def verifySignature (verify : List Nat → List Nat → List Nat → Bool)
    (blake : String → List Nat) (address sigHex keyHex message : String)
    (messageHex : Option String) : Bool :=
  match parseCBORSignature (hexDecode sigHex),
      parseCBORKey (hexDecode keyHex) with
  | some actualSig, some actualKey =>
    if ¬ actualKey.length = 32 then false
    else if ¬ actualSig.length = 64 then false
    else
      (messageFormats blake address message messageHex
          (hexDecode sigHex)).any
        (fun f => verify actualKey f.2 actualSig)
  | _, _ => false

/-- The name of the first candidate format that verifies — the datum
`verifySignature` logs to the console just before returning true, and the
only place the matched convention is recorded. -/
def matchedFormat (verify : List Nat → List Nat → List Nat → Bool)
    (blake : String → List Nat) (address sigHex keyHex message : String)
    (messageHex : Option String) : Option String :=
  match parseCBORSignature (hexDecode sigHex),
      parseCBORKey (hexDecode keyHex) with
  | some actualSig, some actualKey =>
    if ¬ actualKey.length = 32 then none
    else if ¬ actualSig.length = 64 then none
    else
      ((messageFormats blake address message messageHex
          (hexDecode sigHex)).find?
        (fun f => verify actualKey f.2 actualSig)).map (·.1)
  | _, _ => none

end AuthUtils

/-! ## The COSE_Sign1 verifier (`src/unnamed/part_002`, duplicated as the
second document inside `src/server/index.js`) -/

namespace CoseAuth

open AuthService

/-- `parseCBORKey` of the COSE iteration: strictly the `Map` branch with key
`-2` holding a 32-byte Buffer; a plain (string-keyed) object is not an
`instanceof Map` and throws. -/
def parseCBORKey (bs : List Nat) : Option (List Nat) :=
  match decodeFirstSync bs with
  | some (CBOR.map kvs) =>
    if allKeysText kvs then none
    else
      match lookupIntKey kvs (-2) with
      | some (CBOR.bytes k) => if k.length = 32 then some k else none
      | _ => none
  | _ => none

/-- The COSE_Sign1 destructuring in `verifySignature`: the decoded blob must
be an array of at least four fields, of which the first, third and fourth are
used. -/
def coseDecompose (bs : List Nat) : Option (CBOR × CBOR × CBOR × CBOR) :=
  match decodeFirstSync bs with
  | some (CBOR.arr (a :: b :: c :: d :: _)) => some (a, b, c, d)
  | _ => none

/-- `createCOSESign1SigStructure`: CBOR-encode the four-element array
`["Signature1", protectedHeaders, externalAAD, payload]`. -/
def createCOSESign1SigStructure (protectedHeaders externalAAD payload : CBOR) :
    List Nat :=
  cborEncode (CBOR.arr [CBOR.text "Signature1", protectedHeaders, externalAAD,
    payload])

/-- The payload-identity check on the success path of `verifySignature`:
`payload.toString('utf8') === message` (a payload whose `toString` throws
lands in the catch block, yielding false). -/
def payloadTextMatches (payload : CBOR) (message : String) : Bool :=
  match jsToStringUtf8 payload with
  | some payloadStr => payloadStr == message
  | none => false

/-- `verifySignature` of the COSE iteration: decompose the envelope, parse
the key, enforce the 32/64 length checks, verify the reconstructed
Sig_structure, and on success require the payload text to equal the
submitted message.  `messageHex` is only ever logged.  Any throw yields
false. -/
def verifySignature (verify : List Nat → List Nat → List Nat → Bool)
    (address sigHex keyHex message : String) (messageHex : Option String) :
    Bool :=
  match coseDecompose (hexDecode sigHex) with
  | none => false
  | some (protectedHeaders, _unprotected, payload, sig) =>
    match parseCBORKey (hexDecode keyHex) with
    | none => false
    | some actualKey =>
      if ¬ actualKey.length = 32 then false
      else if ¬ jsLength sig = some 64 then false
      else
        match sig with
        | CBOR.bytes sigBytes =>
          if verify actualKey
              (createCOSESign1SigStructure protectedHeaders (CBOR.bytes [])
                payload)
              sigBytes then
            payloadTextMatches payload message
          else false
        | _ => false

/-- The payload-identity check answers true exactly when the payload text is
the message. -/
theorem payloadTextMatches_eq (payload : CBOR) (message : String)
    (h : payloadTextMatches payload message = true) :
    jsToStringUtf8 payload = some message := by
  rw [payloadTextMatches] at h
  cases hps : jsToStringUtf8 payload with
  | none => rw [hps] at h; exact Bool.noConfusion h
  | some pstr =>
    rw [hps] at h
    exact congrArg some (eq_of_beq h)

end CoseAuth

/-! ## Nonce issuance and the HTTP routes (`src/server/index.js`) -/

namespace Server

open AuthService

/-- `generateNonce`, with the 16 random bytes of `crypto.randomBytes(16)`
passed in explicitly. -/
def generateNonce (randomBytes : List Nat) : String := hexEncode randomBytes

/-- The per-session challenge state `{nonce, address, timestamp}` held by the
express session. -/
structure SessionData where
  nonce : String
  address : String
  timestamp : Nat
  deriving Repr, DecidableEq

/-- The JSON responses the two routes can produce. -/
inductive Resp where
  | okChallenge (nonce message : String)
  | okVerify (message address : String)
  | err400 (error : String)
  | err401 (error : String)
  deriving Repr, DecidableEq

/-- `POST /api/auth-challenge`: validate the address, then unconditionally
overwrite the session's nonce, address and timestamp and return the new
challenge.  An invalid address leaves the session untouched. -/
def authChallenge (st : Option SessionData) (address : String)
    (randomBytes : List Nat) (now : Nat) : Option SessionData × Resp :=
  if ¬ validateAddress address then (st, .err400 "Invalid Cardano address")
  else
    let nonce := generateNonce randomBytes
    (some ⟨nonce, address, now⟩,
     .okChallenge nonce ("Sign this message to authenticate: " ++ nonce))

/-- `POST /api/verify-wallet`: session and TTL checks, the echoed-message
check, then the multi-format `verifySignature` from `auth-utils.js`.  The
session is destroyed only on the TTL failure and on success; the
message-mismatch and invalid-signature failures return with the session
still in place. -/
def verifyWallet (verify : List Nat → List Nat → List Nat → Bool)
    (blake : String → List Nat) (st : Option SessionData)
    (address sigHex keyHex message : String) (messageHex : Option String)
    (now : Nat) : Option SessionData × Resp :=
  match st with
  | none => (none, .err400 "Session expired or invalid")
  | some s =>
    if ¬ s.address = address then (some s, .err400 "Session expired or invalid")
    else if 300000 < now - s.timestamp then (none, .err400 "Session expired")
    else
      let expectedMessage := "Sign this message to authenticate: " ++ s.nonce
      if ¬ message = expectedMessage then (some s, .err400 "Message mismatch")
      else if AuthUtils.verifySignature verify blake address sigHex keyHex
          message messageHex then
        (none, .okVerify "Wallet bound successfully!" address)
      else (some s, .err401 "Invalid signature")

end Server

/-! ## JavaScript-level behaviour of `validateAddress` on arbitrary inputs -/

/-- The request-body values `validateAddress` can receive. -/
inductive JSValue where
  | str (s : String)
  | num (n : Int)
  | boolean (b : Bool)
  | nullV
  | undef
  deriving Repr, DecidableEq

/-- The string coercion `RegExp.prototype.test` applies to its argument.
(Integers render in plain decimal; the exponent form JavaScript uses beyond
`1e21` is not modelled, and no theorem below depends on that regime.) -/
def jsCoerceString : JSValue → String
  | .str s => s
  | .num n => toString n
  | .boolean b => if b then "true" else "false"
  | .nullV => "null"
  | .undef => "undefined"

/-- `validateAddress` as the route actually calls it: the three regex tests
never throw, but the debug `console.log` then reads `address.length`, which
throws a `TypeError` when the argument is `null` or `undefined`. -/
def validateAddressJS (v : JSValue) : Except String Bool :=
  match v with
  | .nullV => .error "TypeError"
  | .undef => .error "TypeError"
  | _ => .ok (validateAddress (jsCoerceString v))

/-! ## Concrete fixtures for counterexamples and witnesses -/

namespace Fixtures

open AuthService

/-- The Ed25519 oracle that accepts everything (an always-valid signature). -/
def verifyAll : List Nat → List Nat → List Nat → Bool := fun _ _ _ => true

/-- The Ed25519 oracle that rejects everything. -/
def verifyNone : List Nat → List Nat → List Nat → Bool := fun _ _ _ => false

/-- An Ed25519 oracle for which the submitted signature is valid over exactly
one byte sequence, `target`, and invalid over every other message. -/
def verifyOnly (target : List Nat) : List Nat → List Nat → List Nat → Bool :=
  fun _ msg _ => msg == target

/-- A stand-in blake2b512 digest (its value is irrelevant to every claim). -/
def blakeZero : String → List Nat := fun _ => List.replicate 64 0

/-- A payload the attacker signed: not the issued challenge message. -/
def attackPayload : List Nat := utf8Encode "attacker controlled"

/-- A 64-byte signature field. -/
def sig64 : List Nat := (List.range 64).map (fun i => i + 1)

/-- A 32-byte public-key coordinate. -/
def pk32 : List Nat := List.replicate 32 7

/-- A COSE_Sign1 envelope whose payload is `attackPayload`. -/
def sigEnvelope : List Nat :=
  cborEncode (CBOR.arr [CBOR.bytes [], CBOR.bytes [], CBOR.bytes attackPayload,
    CBOR.bytes sig64])

/-- A COSE_Key map carrying `pk32` at label `-2`. -/
def keyEnvelope : List Nat :=
  cborEncode (CBOR.map [(CBOR.int (-2), CBOR.bytes pk32)])

/-- The challenge message of the fixture session (nonce of 32 `a`s). -/
def goodMsg : String :=
  "Sign this message to authenticate: aaaaaaaaaaaaaaaaaaaaaaaaaaaaaaaa"

/-- A COSE_Sign1 envelope whose payload is the challenge message itself. -/
def goodEnvelope : List Nat :=
  cborEncode (CBOR.arr [CBOR.bytes [], CBOR.bytes [],
    CBOR.bytes (utf8Encode goodMsg), CBOR.bytes sig64])

/-- An envelope whose fourth field is 63 bytes long: the canonical array
decode hands it through without any length check. -/
def env63 : List Nat :=
  cborEncode (CBOR.arr [CBOR.bytes [], CBOR.bytes [], CBOR.bytes [],
    CBOR.bytes (List.replicate 63 5)])

/-- A 64-byte blob that is not decodable CBOR (`0xFF` is a break marker):
parsing must go through the heuristic fallback. -/
def rawSigBlob : List Nat := 255 :: (List.range 63).map (fun i => i % 250 + 1)

/-- A 32-byte non-CBOR key blob for the heuristic fallback. -/
def rawKeyBlob : List Nat := 255 :: List.replicate 31 2

/-- A session holding the live challenge for `goodMsg` (nonce of 32 `a`s),
issued at time 0. -/
def session0 : Server.SessionData :=
  ⟨"aaaaaaaaaaaaaaaaaaaaaaaaaaaaaaaa", "addr1qfixture", 0⟩

end Fixtures

/-! ## Supporting lemmas -/

namespace AuthUtils

/-- Every window the signature scan returns is exactly 64 bytes. -/
theorem scanSig_length (bs r : List Nat) (h : scanSig bs = some r) :
    r.length = 64 := by
  induction bs with
  | nil => simp [scanSig] at h
  | cons b t ih =>
    rw [scanSig] at h
    split at h
    next h64 =>
      split at h
      next =>
        have hr := Option.some.inj h
        subst hr
        rw [List.length_take]
        omega
      next => exact ih h
    next h64 => exact Option.noConfusion h

/-- Every window the key scan returns is exactly 32 bytes. -/
theorem scanKey_length (bs r : List Nat) (h : scanKey bs = some r) :
    r.length = 32 := by
  induction bs with
  | nil => simp [scanKey] at h
  | cons b t ih =>
    rw [scanKey] at h
    split at h
    next h32 =>
      split at h
      next =>
        have hr := Option.some.inj h
        subst hr
        rw [List.length_take]
        omega
      next => exact ih h
    next h32 => exact Option.noConfusion h

/-- On a blob of at least 64 bytes, the signature fallback always produces a
result. -/
theorem sigFallback_isSome (bs : List Nat) (h : 64 ≤ bs.length) :
    (sigFallback bs).isSome = true := by
  rw [sigFallback]
  cases hscan : scanSig bs with
  | some w => rfl
  | none => simp [h]

/-- Whatever the signature fallback produces is exactly 64 bytes. -/
theorem sigFallback_length (bs r : List Nat) (h : sigFallback bs = some r) :
    r.length = 64 := by
  rw [sigFallback] at h
  cases hscan : scanSig bs with
  | some w =>
    rw [hscan] at h
    cases h
    exact scanSig_length bs r hscan
  | none =>
    rw [hscan] at h
    by_cases h64 : 64 ≤ bs.length
    · simp only [if_pos h64, Option.some.injEq] at h
      subst h
      simp [List.length_drop]
      omega
    · simp [if_neg h64] at h

/-- On a blob of at least 32 bytes, the key fallback always produces a
result. -/
theorem keyFallback_isSome (bs : List Nat) (h : 32 ≤ bs.length) :
    (keyFallback bs).isSome = true := by
  rw [keyFallback]
  cases hscan : scanKey bs with
  | some w => rfl
  | none => simp [h]

/-- Whatever the key fallback produces is exactly 32 bytes. -/
theorem keyFallback_length (bs r : List Nat) (h : keyFallback bs = some r) :
    r.length = 32 := by
  rw [keyFallback] at h
  cases hscan : scanKey bs with
  | some w =>
    rw [hscan] at h
    cases h
    exact scanKey_length bs r hscan
  | none =>
    rw [hscan] at h
    by_cases h32 : 32 ≤ bs.length
    · simp only [if_pos h32, Option.some.injEq] at h
      subst h
      simp [List.length_drop]
      omega
    · simp [if_neg h32] at h

/-- If the signature fallback is reached and fails, the blob was shorter than
64 bytes. -/
theorem sigFallback_none (bs : List Nat) (h : sigFallback bs = none) :
    bs.length < 64 := by
  by_contra hlt
  have := sigFallback_isSome bs (by omega)
  rw [h] at this
  cases this

/-- If the key fallback is reached and fails, the blob was shorter than 32
bytes. -/
theorem keyFallback_none (bs : List Nat) (h : keyFallback bs = none) :
    bs.length < 32 := by
  by_contra hlt
  have := keyFallback_isSome bs (by omega)
  rw [h] at this
  cases this

/-- Every key the `Map`-branch probe returns is exactly 32 bytes. -/
theorem mapKeyProbe_length (kvs : List (CBOR × CBOR)) (i : Int)
    (r : List Nat) (h : mapKeyProbe kvs i = some r) : r.length = 32 := by
  rw [mapKeyProbe] at h
  split at h
  next b heq =>
    split at h
    next h32 =>
      have := Option.some.inj h
      subst this
      exact h32
    next => exact Option.noConfusion h
  next => exact Option.noConfusion h

/-- Case split for a fall-through chain of optional probes. -/
theorem orElse_cases {α : Type} (x y : Option α) (k : α)
    (h : (x <|> y) = some k) : x = some k ∨ y = some k := by
  cases x with
  | some r => exact Or.inl h
  | none => exact Or.inr h

/-- `List.any` answers exactly whether `List.find?` finds something. -/
theorem any_eq_find_isSome {α : Type} (l : List α) (p : α → Bool) :
    l.any p = (l.find? p).isSome := by
  induction l with
  | nil => rfl
  | cons x xs ih =>
    cases hp : p x with
    | true => simp [List.any_cons, List.find?_cons, hp]
    | false => simp [List.any_cons, List.find?_cons, hp, ih]

end AuthUtils

/-- `String.mk` then `length` is the character count. -/
theorem stringMk_length (l : List Char) : (String.mk l).length = l.length := rfl

/-- The hex encoding of a byte list has two characters per byte. -/
theorem hexEncode_length (bs : List Nat) :
    (hexEncode bs).length = 2 * bs.length := by
  rw [hexEncode, stringMk_length]
  induction bs with
  | nil => rfl
  | cons b t ih =>
    simp only [List.map_cons, List.flatten_cons, List.length_append, ih,
      List.length_cons]
    rw [byteToHex]
    simp
    omega

/-- A hex digit character produced for a value below 16 is a lowercase hex
digit. -/
theorem hexDigitChar_lower (n : Nat) (h : n < 16) :
    isLowerHexChar (hexDigitChar n) = true := by
  interval_cases n <;> decide

/-- Every character of the hex encoding of genuine bytes is a lowercase hex
digit. -/
theorem hexEncode_all_lower (bs : List Nat) (h : ∀ b ∈ bs, b < 256) :
    (hexEncode bs).data.all isLowerHexChar = true := by
  rw [hexEncode]
  induction bs with
  | nil => rfl
  | cons b t ih =>
    have hb : b < 256 := h b (by simp)
    have ht : ∀ x ∈ t, x < 256 := fun x hx => h x (by simp [hx])
    have h1 : b / 16 < 16 := Nat.div_lt_of_lt_mul (by omega)
    have h2 : b % 16 < 16 := Nat.mod_lt _ (by norm_num)
    have hhead : (byteToHex b).all isLowerHexChar = true := by
      simp [byteToHex, hexDigitChar_lower _ h1, hexDigitChar_lower _ h2]
    simp [List.all_append, hhead, ih ht]

/-- Appending to a common first part is injective for strings. -/
theorem string_append_inj (p a b : String) (h : p ++ a = p ++ b) : a = b := by
  cases p with
  | mk pd =>
    cases a with
    | mk ad =>
      cases b with
      | mk bd =>
        have hd : pd ++ ad = pd ++ bd := congrArg String.data h
        exact congrArg String.mk (List.append_cancel_left hd)

end AuthService

open AuthService

/-!
# Claim theorems
-/

/-- C6: for every signature blob of at least 64 bytes the parser does not
fail, and likewise for every key blob of at least 32 bytes; a parse failure
(`MalformedSignatureError`) happens only on shorter inputs; and whenever the
structured decode failed and the fallback answered, the produced blobs have
exactly the required 64 / 32 byte lengths. -/
theorem c6_fallback_total :
    (∀ bs : List Nat, 64 ≤ bs.length →
      (AuthUtils.parseCBORSignature bs).isSome = true) ∧
    (∀ bs : List Nat, 32 ≤ bs.length →
      (AuthUtils.parseCBORKey bs).isSome = true) ∧
    (∀ bs : List Nat, AuthUtils.parseCBORSignature bs = none →
      bs.length < 64) ∧
    (∀ bs : List Nat, AuthUtils.parseCBORKey bs = none → bs.length < 32) ∧
    (∀ bs r : List Nat, AuthUtils.structuredSig bs = none →
      AuthUtils.parseCBORSignature bs = some r → r.length = 64) ∧
    (∀ bs r : List Nat, AuthUtils.structuredKey bs = none →
      AuthUtils.parseCBORKey bs = some r → r.length = 32) := by
  refine ⟨?_, ?_, ?_, ?_, ?_, ?_⟩
  · intro bs h
    rw [AuthUtils.parseCBORSignature]
    cases hs : AuthUtils.structuredSig bs with
    | some r => rfl
    | none => exact AuthUtils.sigFallback_isSome bs h
  · intro bs h
    rw [AuthUtils.parseCBORKey]
    cases hs : AuthUtils.structuredKey bs with
    | some r => rfl
    | none => exact AuthUtils.keyFallback_isSome bs h
  · intro bs h
    rw [AuthUtils.parseCBORSignature] at h
    cases hs : AuthUtils.structuredSig bs with
    | some r => rw [hs] at h; exact Option.noConfusion h
    | none => rw [hs] at h; exact AuthUtils.sigFallback_none bs h
  · intro bs h
    rw [AuthUtils.parseCBORKey] at h
    cases hs : AuthUtils.structuredKey bs with
    | some r => rw [hs] at h; exact Option.noConfusion h
    | none => rw [hs] at h; exact AuthUtils.keyFallback_none bs h
  · intro bs r hs h
    rw [AuthUtils.parseCBORSignature, hs] at h
    exact AuthUtils.sigFallback_length bs r h
  · intro bs r hs h
    rw [AuthUtils.parseCBORKey, hs] at h
    exact AuthUtils.keyFallback_length bs r h

/-- Witness for C6 at concrete inputs: a 64-byte all-zero signature blob and
a 32-byte all-one key blob both parse successfully. -/
theorem c6_fallback_total_witness :
    (AuthUtils.parseCBORSignature (List.replicate 64 0)).isSome = true ∧
    (AuthUtils.parseCBORKey (List.replicate 32 1)).isSome = true :=
  ⟨c6_fallback_total.1 (List.replicate 64 0) (by decide),
   c6_fallback_total.2.1 (List.replicate 32 1) (by decide)⟩

/-- C9: every successful challenge issuance responds with
`message = "Sign this message to authenticate: " ++ nonce`, where the nonce
is the hex encoding of the 16 random bytes — exactly 32 lowercase hex
characters. -/
theorem c9_challenge_shape (st : Option Server.SessionData) (address : String)
    (randomBytes : List Nat) (now : Nat)
    (hv : validateAddress address = true) (hlen : randomBytes.length = 16)
    (hbytes : ∀ b ∈ randomBytes, b < 256) :
    (Server.authChallenge st address randomBytes now).2 =
      Server.Resp.okChallenge (Server.generateNonce randomBytes)
        ("Sign this message to authenticate: " ++
          Server.generateNonce randomBytes) ∧
    (Server.generateNonce randomBytes).length = 32 ∧
    (Server.generateNonce randomBytes).data.all isLowerHexChar = true := by
  refine ⟨?_, ?_, ?_⟩
  · rw [Server.authChallenge]
    simp [hv]
  · rw [Server.generateNonce, hexEncode_length, hlen]
  · exact hexEncode_all_lower randomBytes hbytes

/-- Witness for C9: sixteen concrete random bytes and a concrete address. -/
theorem c9_challenge_shape_witness :
    (Server.authChallenge none "addr1qxyzabcdef" (List.range 16) 5).2 =
      Server.Resp.okChallenge (Server.generateNonce (List.range 16))
        ("Sign this message to authenticate: " ++
          Server.generateNonce (List.range 16)) ∧
    (Server.generateNonce (List.range 16)).length = 32 ∧
    (Server.generateNonce (List.range 16)).data.all isLowerHexChar = true :=
  c9_challenge_shape none "addr1qxyzabcdef" (List.range 16) 5 (by decide)
    (by decide) (by decide)

/-- C10: when a session already holds a live challenge, a second
`/api/auth-challenge` request with a valid address silently replaces the
stored nonce, address and timestamp and answers with the fresh challenge;
afterwards a verification attempt that echoes the previous challenge message
fails (with the message-mismatch rejection), so the old nonce is no longer
verifiable. -/
theorem c10_challenge_overwrite (s : Server.SessionData) (address : String)
    (randomBytes : List Nat) (now now2 : Nat)
    (verify : List Nat → List Nat → List Nat → Bool)
    (blake : String → List Nat) (sigHex keyHex : String)
    (messageHex : Option String)
    (hv : validateAddress address = true)
    (hnonce : Server.generateNonce randomBytes ≠ s.nonce)
    (hfresh : now2 - now ≤ 300000) :
    Server.authChallenge (some s) address randomBytes now =
      (some ⟨Server.generateNonce randomBytes, address, now⟩,
       Server.Resp.okChallenge (Server.generateNonce randomBytes)
         ("Sign this message to authenticate: " ++
           Server.generateNonce randomBytes)) ∧
    (Server.verifyWallet verify blake
        (some ⟨Server.generateNonce randomBytes, address, now⟩) address sigHex
        keyHex ("Sign this message to authenticate: " ++ s.nonce) messageHex
        now2).2 = Server.Resp.err400 "Message mismatch" := by
  constructor
  · rw [Server.authChallenge]
    simp [hv, Server.generateNonce]
  · have hmsg : ¬ ("Sign this message to authenticate: " ++ s.nonce) =
        ("Sign this message to authenticate: " ++
          Server.generateNonce randomBytes) := by
      intro hc
      exact hnonce (string_append_inj _ _ _ hc).symm
    rw [Server.verifyWallet]
    simp [show ¬ (300000 < now2 - now) by omega, hmsg]

/-- Witness for C10 at concrete values: old nonce of 32 `b`s, fresh bytes
`0..15`. -/
theorem c10_challenge_overwrite_witness :
    Server.authChallenge
        (some ⟨"bbbbbbbbbbbbbbbbbbbbbbbbbbbbbbbb", "addr1qwitness", 0⟩)
        "addr1qwitness" (List.range 16) 40 =
      (some ⟨Server.generateNonce (List.range 16), "addr1qwitness", 40⟩,
       Server.Resp.okChallenge (Server.generateNonce (List.range 16))
         ("Sign this message to authenticate: " ++
           Server.generateNonce (List.range 16))) ∧
    (Server.verifyWallet Fixtures.verifyAll Fixtures.blakeZero
        (some ⟨Server.generateNonce (List.range 16), "addr1qwitness", 40⟩)
        "addr1qwitness" "" ""
        ("Sign this message to authenticate: " ++
          "bbbbbbbbbbbbbbbbbbbbbbbbbbbbbbbb") none 90).2 =
      Server.Resp.err400 "Message mismatch" :=
  c10_challenge_overwrite
    ⟨"bbbbbbbbbbbbbbbbbbbbbbbbbbbbbbbb", "addr1qwitness", 0⟩ "addr1qwitness"
    (List.range 16) 40 90 Fixtures.verifyAll Fixtures.blakeZero "" "" none
    (by decide) (by decide) (by decide)

/-- Characterization of the `addr(_test)?1[0-9a-z]+` matcher by an explicit
decomposition of the input. -/
theorem bech32TestL_iff (l : List Char) :
    bech32TestL l = true ↔
      ∃ t : List Char,
        (l = 'a' :: 'd' :: 'd' :: 'r' :: '1' :: t ∨
         l = 'a' :: 'd' :: 'd' :: 'r' :: '_' :: 't' :: 'e' :: 's' :: 't' :: '1' :: t) ∧
        t ≠ [] ∧ t.all isLowerAlnum = true := by
  constructor
  · intro h
    unfold bech32TestL at h
    split at h
    next h10 =>
      simp only [decide_eq_true_eq] at h
      refine ⟨l.drop 10, Or.inr ?_, h.1, h.2⟩
      conv_lhs => rw [← List.take_append_drop 10 l]
      rw [h10]
      rfl
    next h10 =>
      split at h
      next h5 =>
        simp only [decide_eq_true_eq] at h
        refine ⟨l.drop 5, Or.inl ?_, h.1, h.2⟩
        conv_lhs => rw [← List.take_append_drop 5 l]
        rw [h5]
        rfl
      next => exact Bool.noConfusion h
  · rintro ⟨t, ht, hne, hall⟩
    rcases ht with rfl | rfl
    · have h10 : ¬ (('a' :: 'd' :: 'd' :: 'r' :: '1' :: t).take 10 =
          ['a', 'd', 'd', 'r', '_', 't', 'e', 's', 't', '1']) := by
        simp
      rw [bech32TestL, if_neg h10, if_pos (by simp)]
      simp only [List.drop_succ_cons, List.drop_zero, decide_eq_true_eq]
      exact ⟨hne, hall⟩
    · rw [bech32TestL, if_pos (by simp)]
      simp only [List.drop_succ_cons, List.drop_zero, decide_eq_true_eq]
      exact ⟨hne, hall⟩

/-- The address grammar exactly as claim C7 words it: the prefixed family
inside the 50-120 character window ("roughly" resolved to the stated
bounds), or hex of 56-116 characters. -/
def addrGrammarSpec (s : String) : Bool :=
  (bech32TestL s.data ∧ 50 ≤ s.length ∧ s.length ≤ 120) ∨
  (56 ≤ s.length ∧ s.length ≤ 116 ∧ s.data.all isHexDigitCI)

/-- Counterexample for C7: the six-character string `addr1q` is outside both
claimed grammars (far below every length window), yet `validateAddress`
accepts it — the code's prefixed-family regex has no length constraint. -/
theorem c7_address_grammar_counterexample :
    validateAddress "addr1q" = true ∧ addrGrammarSpec "addr1q" = false := by
  decide

/-- C7 (amended): `validateAddress` accepts exactly the prefixed family
`addr1`/`addr_test1` followed by at least one lowercase alphanumeric — with
no length window at all — together with the case-insensitive hex family of
56 to 116 characters. -/
theorem c7_address_grammar_amended (s : String) :
    validateAddress s = true ↔
      ((∃ t : List Char,
          (s.data = 'a' :: 'd' :: 'd' :: 'r' :: '1' :: t ∨
           s.data = 'a' :: 'd' :: 'd' :: 'r' :: '_' :: 't' :: 'e' :: 's' :: 't' :: '1' :: t) ∧
          t ≠ [] ∧ t.all isLowerAlnum = true) ∨
       (56 ≤ s.length ∧ s.length ≤ 116 ∧ s.data.all isHexDigitCI = true)) := by
  have hlen : s.length = s.data.length := rfl
  rw [validateAddress]
  simp only [decide_eq_true_eq, hexPattern114, hexPatternShort, ← bech32TestL_iff]
  constructor
  · rintro (hb | h114 | hshort)
    · exact Or.inl hb
    · rcases h114 with ⟨hl, hall⟩
      exact Or.inr ⟨by omega, by omega, hall⟩
    · rcases hshort with ⟨h1, h2, hall⟩
      exact Or.inr ⟨by omega, by omega, hall⟩
  · rintro (hb | ⟨h1, h2, hall⟩)
    · exact Or.inl hb
    · exact Or.inr (Or.inr ⟨by omega, by omega, hall⟩)

/-- Counterexample for C8: `validateAddress(null)` does not return false —
the debug log dereferences `address.length` and throws a `TypeError` (the
same holds for `undefined`). -/
theorem c8_never_throws_counterexample :
    validateAddressJS JSValue.nullV = Except.error "TypeError" ∧
    validateAddressJS JSValue.undef = Except.error "TypeError" :=
  ⟨rfl, rfl⟩

/-- C8 (amended): for every input other than `null`/`undefined` the validator
returns a boolean without throwing; the empty string, booleans and plain
numbers yield false; but `null` and `undefined` make it throw. -/
theorem c8_never_throws_amended :
    (∀ v : JSValue, v ≠ JSValue.nullV → v ≠ JSValue.undef →
      ∃ b, validateAddressJS v = Except.ok b) ∧
    validateAddressJS (JSValue.str "") = Except.ok false ∧
    (∀ b : Bool, validateAddressJS (JSValue.boolean b) = Except.ok false) ∧
    validateAddressJS (JSValue.num 12345) = Except.ok false := by
  refine ⟨?_, rfl, ?_, rfl⟩
  · intro v h1 h2
    cases v with
    | str s => exact ⟨_, rfl⟩
    | num n => exact ⟨_, rfl⟩
    | boolean b => exact ⟨_, rfl⟩
    | nullV => exact absurd rfl h1
    | undef => exact absurd rfl h2
  · intro b
    cases b with
    | false => rfl
    | true => rfl

/-- Witness for C8 (amended) at a concrete non-null input. -/
theorem c8_never_throws_witness :
    ∃ b, validateAddressJS (JSValue.str "hello") = Except.ok b :=
  c8_never_throws_amended.1 (JSValue.str "hello") (by decide) (by decide)

/-- Counterexample for C1: a proof whose signature is Ed25519-valid over
exactly the payload `"attacker controlled"` — which differs from the expected
challenge message — is accepted by the `verifySignature` of
`src/server/auth-utils.js`: the payload extracted from the envelope is itself
among the candidate byte sequences tried, and no payload-identity comparison
against the expected message is ever made. -/
theorem c1_substitution_counterexample :
    AuthUtils.verifySignature (Fixtures.verifyOnly Fixtures.attackPayload)
      Fixtures.blakeZero "aabb" (hexEncode Fixtures.sigEnvelope)
      (hexEncode Fixtures.keyEnvelope) Fixtures.goodMsg none = true ∧
    ¬ utf8DecodeLossy Fixtures.attackPayload = Fixtures.goodMsg := by
  decide

/-- C1 (amended): the COSE_Sign1 `verifySignature` iteration does enforce
payload identity — whenever it returns true, the payload recovered from the
decoded envelope, read as text, equals the submitted message exactly.  (The
multi-format iteration in `src/server/auth-utils.js` does not, per the
counterexample.) -/
theorem c1_payload_identity (verify : List Nat → List Nat → List Nat → Bool)
    (address sigHex keyHex message : String) (messageHex : Option String)
    (h : CoseAuth.verifySignature verify address sigHex keyHex message
      messageHex = true) :
    ∃ ph uh payload sig,
      CoseAuth.coseDecompose (hexDecode sigHex) = some (ph, uh, payload, sig) ∧
      jsToStringUtf8 payload = some message := by
  rw [CoseAuth.verifySignature] at h
  cases hd : CoseAuth.coseDecompose (hexDecode sigHex) with
  | none => rw [hd] at h; exact Bool.noConfusion h
  | some q =>
    obtain ⟨ph, uh, payload, sig⟩ := q
    rw [hd] at h
    cases hk : CoseAuth.parseCBORKey (hexDecode keyHex) with
    | none => rw [hk] at h; exact Bool.noConfusion h
    | some actualKey =>
      rw [hk] at h
      cases sig with
      | bytes sigBytes =>
        replace h : (if ¬ actualKey.length = 32 then false
            else if ¬ jsLength (CBOR.bytes sigBytes) = some 64 then false
            else if verify actualKey
                (CoseAuth.createCOSESign1SigStructure ph (CBOR.bytes [])
                  payload)
                sigBytes then
              CoseAuth.payloadTextMatches payload message
            else false) = true := h
        by_cases hkl : actualKey.length = 32
        · rw [if_neg (not_not_intro hkl)] at h
          by_cases hsl : jsLength (CBOR.bytes sigBytes) = some 64
          · rw [if_neg (not_not_intro hsl)] at h
            by_cases hv : verify actualKey
                (CoseAuth.createCOSESign1SigStructure ph (CBOR.bytes [])
                  payload) sigBytes = true
            · rw [if_pos hv] at h
              exact ⟨ph, uh, payload, CBOR.bytes sigBytes, rfl,
                CoseAuth.payloadTextMatches_eq payload message h⟩
            · rw [if_neg hv] at h
              exact Bool.noConfusion h
          · rw [if_pos hsl] at h
            exact Bool.noConfusion h
        · rw [if_pos hkl] at h
          exact Bool.noConfusion h
      | int i =>
        replace h : (if ¬ actualKey.length = 32 then false
            else if ¬ jsLength (CBOR.int i) = some 64 then false
            else false) = true := h
        simp at h
      | text s =>
        replace h : (if ¬ actualKey.length = 32 then false
            else if ¬ jsLength (CBOR.text s) = some 64 then false
            else false) = true := h
        simp at h
      | arr xs =>
        replace h : (if ¬ actualKey.length = 32 then false
            else if ¬ jsLength (CBOR.arr xs) = some 64 then false
            else false) = true := h
        simp at h
      | map kvs =>
        replace h : (if ¬ actualKey.length = 32 then false
            else if ¬ jsLength (CBOR.map kvs) = some 64 then false
            else false) = true := h
        simp at h

set_option maxRecDepth 8000 in
/-- Witness for C1 (amended): a well-formed envelope whose payload is the
challenge message itself is accepted, and the theorem recovers the matching
payload. -/
theorem c1_payload_identity_witness :
    ∃ ph uh payload sig,
      CoseAuth.coseDecompose (hexDecode (hexEncode Fixtures.goodEnvelope)) =
        some (ph, uh, payload, sig) ∧
      jsToStringUtf8 payload = some Fixtures.goodMsg :=
  c1_payload_identity Fixtures.verifyAll "aabb"
    (hexEncode Fixtures.goodEnvelope) (hexEncode Fixtures.keyEnvelope)
    Fixtures.goodMsg none (by decide)

/-- Counterexample for C2: a first verification attempt that completes with
the terminal invalid-signature failure leaves the stored challenge in place
(the route only calls `req.session.destroy()` on expiry and on success), and
a second attempt against the very same session then succeeds instead of
being rejected with the session-expired error. -/
theorem c2_single_use_counterexample :
    Server.verifyWallet Fixtures.verifyNone Fixtures.blakeZero
        (some Fixtures.session0) "addr1qfixture"
        (hexEncode Fixtures.sigEnvelope) (hexEncode Fixtures.keyEnvelope)
        Fixtures.goodMsg none 1000 =
      (some Fixtures.session0, Server.Resp.err401 "Invalid signature") ∧
    Server.verifyWallet Fixtures.verifyAll Fixtures.blakeZero
        (some Fixtures.session0) "addr1qfixture"
        (hexEncode Fixtures.sigEnvelope) (hexEncode Fixtures.keyEnvelope)
        Fixtures.goodMsg none 2000 =
      (none, Server.Resp.okVerify "Wallet bound successfully!"
        "addr1qfixture") := by
  decide

/-- C2 (amended): the `/api/verify-wallet` route destroys the session
exactly on the two outcomes success and TTL expiry; every other completed
attempt — session-address mismatch, message mismatch, invalid signature —
returns with the challenge still stored, so such attempts may be retried. -/
theorem c2_single_use_amended (verify : List Nat → List Nat → List Nat → Bool)
    (blake : String → List Nat) (s : Server.SessionData)
    (address sigHex keyHex message : String) (messageHex : Option String)
    (now : Nat) :
    (Server.verifyWallet verify blake (some s) address sigHex keyHex message
        messageHex now).1 = none ↔
      ((Server.verifyWallet verify blake (some s) address sigHex keyHex
          message messageHex now).2 =
        Server.Resp.okVerify "Wallet bound successfully!" address ∨
       (Server.verifyWallet verify blake (some s) address sigHex keyHex
          message messageHex now).2 =
        Server.Resp.err400 "Session expired") := by
  rw [Server.verifyWallet]
  by_cases h1 : s.address = address
  · by_cases h2 : 300000 < now - s.timestamp
    · simp [h1, h2]
    · by_cases h3 : message = "Sign this message to authenticate: " ++ s.nonce
      · subst h3
        by_cases h4 : AuthUtils.verifySignature verify blake address sigHex
            keyHex ("Sign this message to authenticate: " ++ s.nonce)
            messageHex = true
        · simp [h1, h2, h4]
        · simp [h1, h2, h4]
      · simp [h1, h2, h3]
  · simp [h1]

/-- C3: whenever the COSE_Sign1 `verifySignature` accepts a proof, the byte
sequence handed to Ed25519 verification is precisely the deterministic CBOR
encoding of the four-element array
`["Signature1", protectedHeaderBytes, emptyExternalAAD, payloadBytes]`
reconstructed from the envelope's first and third fields, checked against
the 64-byte signature field under the 32-byte parsed public key. -/
theorem c3_sig_structure (verify : List Nat → List Nat → List Nat → Bool)
    (address sigHex keyHex message : String) (messageHex : Option String)
    (h : CoseAuth.verifySignature verify address sigHex keyHex message
      messageHex = true) :
    ∃ ph uh payload sigBytes actualKey,
      CoseAuth.coseDecompose (hexDecode sigHex) =
        some (ph, uh, payload, CBOR.bytes sigBytes) ∧
      CoseAuth.parseCBORKey (hexDecode keyHex) = some actualKey ∧
      actualKey.length = 32 ∧ sigBytes.length = 64 ∧
      verify actualKey
        (CoseAuth.createCOSESign1SigStructure ph (CBOR.bytes []) payload)
        sigBytes = true ∧
      CoseAuth.createCOSESign1SigStructure ph (CBOR.bytes []) payload =
        cborEncode (CBOR.arr [CBOR.text "Signature1", ph, CBOR.bytes [],
          payload]) := by
  rw [CoseAuth.verifySignature] at h
  cases hd : CoseAuth.coseDecompose (hexDecode sigHex) with
  | none => rw [hd] at h; exact Bool.noConfusion h
  | some q =>
    obtain ⟨ph, uh, payload, sig⟩ := q
    rw [hd] at h
    cases hk : CoseAuth.parseCBORKey (hexDecode keyHex) with
    | none => rw [hk] at h; exact Bool.noConfusion h
    | some actualKey =>
      rw [hk] at h
      cases sig with
      | bytes sigBytes =>
        replace h : (if ¬ actualKey.length = 32 then false
            else if ¬ jsLength (CBOR.bytes sigBytes) = some 64 then false
            else if verify actualKey
                (CoseAuth.createCOSESign1SigStructure ph (CBOR.bytes [])
                  payload)
                sigBytes then
              CoseAuth.payloadTextMatches payload message
            else false) = true := h
        by_cases hkl : actualKey.length = 32
        · rw [if_neg (not_not_intro hkl)] at h
          by_cases hsl : jsLength (CBOR.bytes sigBytes) = some 64
          · rw [if_neg (not_not_intro hsl)] at h
            by_cases hv : verify actualKey
                (CoseAuth.createCOSESign1SigStructure ph (CBOR.bytes [])
                  payload) sigBytes = true
            · refine ⟨ph, uh, payload, sigBytes, actualKey, rfl, rfl, hkl,
                ?_, hv, rfl⟩
              rw [jsLength] at hsl
              exact Option.some.inj hsl
            · rw [if_neg hv] at h
              exact Bool.noConfusion h
          · rw [if_pos hsl] at h
            exact Bool.noConfusion h
        · rw [if_pos hkl] at h
          exact Bool.noConfusion h
      | int i =>
        replace h : (if ¬ actualKey.length = 32 then false
            else if ¬ jsLength (CBOR.int i) = some 64 then false
            else false) = true := h
        simp at h
      | text s =>
        replace h : (if ¬ actualKey.length = 32 then false
            else if ¬ jsLength (CBOR.text s) = some 64 then false
            else false) = true := h
        simp at h
      | arr xs =>
        replace h : (if ¬ actualKey.length = 32 then false
            else if ¬ jsLength (CBOR.arr xs) = some 64 then false
            else false) = true := h
        simp at h
      | map kvs =>
        replace h : (if ¬ actualKey.length = 32 then false
            else if ¬ jsLength (CBOR.map kvs) = some 64 then false
            else false) = true := h
        simp at h

set_option maxRecDepth 8000 in
/-- Witness for C3 at a concrete accepted proof. -/
theorem c3_sig_structure_witness :
    ∃ ph uh payload sigBytes actualKey,
      CoseAuth.coseDecompose (hexDecode (hexEncode Fixtures.goodEnvelope)) =
        some (ph, uh, payload, CBOR.bytes sigBytes) ∧
      CoseAuth.parseCBORKey (hexDecode (hexEncode Fixtures.keyEnvelope)) =
        some actualKey ∧
      actualKey.length = 32 ∧ sigBytes.length = 64 ∧
      Fixtures.verifyAll actualKey
        (CoseAuth.createCOSESign1SigStructure ph (CBOR.bytes []) payload)
        sigBytes = true ∧
      CoseAuth.createCOSESign1SigStructure ph (CBOR.bytes []) payload =
        cborEncode (CBOR.arr [CBOR.text "Signature1", ph, CBOR.bytes [],
          payload]) :=
  c3_sig_structure Fixtures.verifyAll "ccdd"
    (hexEncode Fixtures.goodEnvelope) (hexEncode Fixtures.keyEnvelope)
    Fixtures.goodMsg none (by decide)

/-- Counterexample for C4: an envelope whose fourth field is a 63-byte
Buffer.  The canonical array decode of `parseCBORSignature` succeeds and
returns those 63 bytes unchanged — it enforces no 64-byte requirement
itself (that check only happens later, inside `verifySignature`). -/
theorem c4_length_invariant_counterexample :
    AuthUtils.structuredSig Fixtures.env63 = some (List.replicate 63 5) ∧
    AuthUtils.parseCBORSignature Fixtures.env63 =
      some (List.replicate 63 5) ∧
    ¬ (List.replicate 63 5).length = 64 := by
  decide

/-- C4 (amended): the canonical key decode (integer-keyed COSE_Key map)
yields only exactly-32-byte keys, with no truncation or padding; the
canonical signature decode returns the envelope's fourth field whatever its
length, and the 64-byte requirement is enforced afterwards by
`verifySignature`, which rejects any parse result of a different length. -/
theorem c4_length_invariant_amended :
    (∀ (bs : List Nat) (kvs : List (CBOR × CBOR)) (k : List Nat),
      decodeFirstSync bs = some (CBOR.map kvs) → allKeysText kvs = false →
      AuthUtils.structuredKey bs = some k → k.length = 32) ∧
    (∀ (verify : List Nat → List Nat → List Nat → Bool)
      (blake : String → List Nat)
      (address sigHex keyHex message : String) (messageHex : Option String)
      (sg : List Nat),
      AuthUtils.parseCBORSignature (hexDecode sigHex) = some sg →
      ¬ sg.length = 64 →
      AuthUtils.verifySignature verify blake address sigHex keyHex message
        messageHex = false) := by
  constructor
  · intro bs kvs k hdec htext h
    rw [AuthUtils.structuredKey, hdec] at h
    have hcond : ¬ (allKeysText kvs = true) := by
      rw [htext]
      exact Bool.false_ne_true
    replace h : (if allKeysText kvs = true then
        AuthUtils.objKeyProbe kvs "publicKey" <|>
          AuthUtils.objKeyProbe kvs "-2" <|> AuthUtils.objKeyProbe kvs "-3" <|>
          AuthUtils.objKeyProbe kvs "1" <|> AuthUtils.objKeyProbe kvs "2"
      else
        AuthUtils.mapKeyProbe kvs (-2) <|> AuthUtils.mapKeyProbe kvs (-3) <|>
          AuthUtils.mapKeyProbe kvs 1 <|> AuthUtils.mapKeyProbe kvs 2 <|>
          AuthUtils.mapKeyProbe kvs 3) = some k := h
    rw [if_neg hcond] at h
    rcases AuthUtils.orElse_cases _ _ _ h with h1 | h
    · exact AuthUtils.mapKeyProbe_length kvs (-2) k h1
    rcases AuthUtils.orElse_cases _ _ _ h with h1 | h
    · exact AuthUtils.mapKeyProbe_length kvs (-3) k h1
    rcases AuthUtils.orElse_cases _ _ _ h with h1 | h
    · exact AuthUtils.mapKeyProbe_length kvs 1 k h1
    rcases AuthUtils.orElse_cases _ _ _ h with h1 | h
    · exact AuthUtils.mapKeyProbe_length kvs 2 k h1
    exact AuthUtils.mapKeyProbe_length kvs 3 k h
  · intro verify blake address sigHex keyHex message messageHex sg hp hlen
    rw [AuthUtils.verifySignature, hp]
    cases hk : AuthUtils.parseCBORKey (hexDecode keyHex) with
    | none => rfl
    | some actualKey =>
      show (if ¬ actualKey.length = 32 then false
        else if ¬ sg.length = 64 then false
        else (AuthUtils.messageFormats blake address message messageHex
            (hexDecode sigHex)).any
          (fun f => verify actualKey f.2 sg)) = false
      by_cases hkl : actualKey.length = 32
      · rw [if_neg (not_not_intro hkl), if_pos hlen]
      · rw [if_pos hkl]

/-- Witness for C4 (amended) at concrete inputs: the fixture key envelope
decodes to a 32-byte key, and the 63-byte-signature envelope makes
`verifySignature` return false even under an oracle accepting everything. -/
theorem c4_length_invariant_witness :
    Fixtures.pk32.length = 32 ∧
    AuthUtils.verifySignature Fixtures.verifyAll Fixtures.blakeZero "aa"
      (hexEncode Fixtures.env63) (hexEncode Fixtures.keyEnvelope) "m" none =
      false :=
  ⟨c4_length_invariant_amended.1 Fixtures.keyEnvelope
      [(CBOR.int (-2), CBOR.bytes Fixtures.pk32)] Fixtures.pk32 (by rfl)
      (by decide) (by decide),
   c4_length_invariant_amended.2 Fixtures.verifyAll Fixtures.blakeZero "aa"
      (hexEncode Fixtures.env63) (hexEncode Fixtures.keyEnvelope) "m" none
      (List.replicate 63 5) (by decide) (by decide)⟩

/-- Counterexample for C5: `verifySignature` returns a bare boolean, so a
match found only through the heuristic fallback path (here the raw non-CBOR
blobs, matched via the `original-hex` rendering of the message) is
indistinguishable to the caller from a canonical extracted-payload match —
the format name is merely logged, never recorded in the result. -/
theorem c5_matched_convention_counterexample :
    AuthUtils.matchedFormat (Fixtures.verifyOnly Fixtures.attackPayload)
      Fixtures.blakeZero "aabb" (hexEncode Fixtures.sigEnvelope)
      (hexEncode Fixtures.keyEnvelope) Fixtures.goodMsg none =
      some "extracted-payload" ∧
    AuthUtils.matchedFormat (Fixtures.verifyOnly (utf8Encode Fixtures.goodMsg))
      Fixtures.blakeZero "aabb" (hexEncode Fixtures.rawSigBlob)
      (hexEncode Fixtures.rawKeyBlob) Fixtures.goodMsg none =
      some "original-hex" ∧
    AuthUtils.verifySignature (Fixtures.verifyOnly Fixtures.attackPayload)
      Fixtures.blakeZero "aabb" (hexEncode Fixtures.sigEnvelope)
      (hexEncode Fixtures.keyEnvelope) Fixtures.goodMsg none =
      AuthUtils.verifySignature (Fixtures.verifyOnly (utf8Encode Fixtures.goodMsg))
        Fixtures.blakeZero "aabb" (hexEncode Fixtures.rawSigBlob)
        (hexEncode Fixtures.rawKeyBlob) Fixtures.goodMsg none := by
  decide

/-- C5 (amended): the boolean result of `verifySignature` carries exactly
the information of whether some candidate matched — the name of the matched
convention is computed (and logged) but never returned. -/
theorem c5_matched_convention_amended
    (verify : List Nat → List Nat → List Nat → Bool)
    (blake : String → List Nat) (address sigHex keyHex message : String)
    (messageHex : Option String) :
    AuthUtils.verifySignature verify blake address sigHex keyHex message
        messageHex =
      (AuthUtils.matchedFormat verify blake address sigHex keyHex message
        messageHex).isSome := by
  rw [AuthUtils.verifySignature, AuthUtils.matchedFormat]
  cases hs : AuthUtils.parseCBORSignature (hexDecode sigHex) with
  | none => rfl
  | some actualSig =>
    cases hk : AuthUtils.parseCBORKey (hexDecode keyHex) with
    | none => rfl
    | some actualKey =>
      show (if ¬ actualKey.length = 32 then false
          else if ¬ actualSig.length = 64 then false
          else (AuthUtils.messageFormats blake address message messageHex
              (hexDecode sigHex)).any
            (fun f => verify actualKey f.2 actualSig)) =
        (if ¬ actualKey.length = 32 then none
          else if ¬ actualSig.length = 64 then none
          else ((AuthUtils.messageFormats blake address message messageHex
              (hexDecode sigHex)).find?
            (fun f => verify actualKey f.2 actualSig)).map (·.1)).isSome
      by_cases hkl : actualKey.length = 32
      · rw [if_neg (not_not_intro hkl), if_neg (not_not_intro hkl)]
        by_cases hsl : actualSig.length = 64
        · rw [if_neg (not_not_intro hsl), if_neg (not_not_intro hsl),
            Option.isSome_map']
          exact AuthUtils.any_eq_find_isSome _ _
        · rw [if_pos hsl, if_pos hsl]
          rfl
      · rw [if_pos hkl, if_pos hkl]
        rfl

